import Mathlib

/-!
Verification of the YouTube downloader core (`app.py`).

The development shallowly embeds the pure core of the program:

* the URL validator / video-id extractor (`is_valid_youtube_url`,
  `extract_video_id`), embedded as a hand-compiled backtracking matcher for
  the fixed regular expression
  `(https?://)?(www\.)?(youtube|youtu|youtube-nocookie)\.(com|be)/`
  `(watch\?v=|embed/|v/|.+\?v=)?([^&=%\?]{11})`
  used by both functions (the source compiles the identical pattern twice;
  Python `re.match` anchors at the start only, tries alternatives left to
  right and quantifiers greedily, which the continuation structure below
  reproduces exactly);
* the format-catalog construction inside `get_video_info`;
* the `ydl_opts` construction inside `download_video`;
* the two request handlers, with the Media Resolution Engine (`yt_dlp`)
  abstracted as function parameters and the filesystem as explicit state.
-/

/-- One character of regex group 6, the character class `[^&=%\?]`. -/
def isIdChar (c : Char) : Bool :=
  !(c == '&' || c == '=' || c == '%' || c == '?')

/-- Consume the literal `lit` from the front of `s` (regex literal text). -/
def dropChars : List Char → List Char → Option (List Char)
  | [], s => some s
  | _ :: _, [] => none
  | c :: cs, d :: ds => if c = d then dropChars cs ds else none

def dropLit (lit : String) (s : List Char) : Option (List Char) :=
  dropChars lit.data s

/-- Consume exactly `n` characters, each satisfying `isIdChar`. -/
def takeChars : Nat → List Char → Option (List Char)
  | 0, _ => some []
  | _ + 1, [] => none
  | n + 1, c :: cs =>
    if isIdChar c then (takeChars n cs).map (c :: ·) else none

/-- Group 6, `[^&=%\?]{11}`: the captured video id.  `re.match` does not
anchor the end, so any remaining characters are ignored. -/
def matchG6 (s : List Char) : Option String :=
  (takeChars 11 s).map String.mk

/-- One backtracking candidate for `.+\?v=` followed by group 6: `.` has
consumed exactly `k` characters, then the literal `?v=`, then group 6. -/
def dotCand (k : Nat) (s : List Char) : Option String :=
  dropLit "?v=" (s.drop k) >>= matchG6

/-- Greedy backtracking for `.+\?v=` + group 6: try `.`-lengths `n`,
`n - 1`, ..., `1` in this order (longest first, as a greedy `+` does). -/
def dotPlusAux : Nat → List Char → Option String
  | 0, _ => none
  | n + 1, s => dotCand (n + 1) s <|> dotPlusAux n s

/-- Number of characters `.` may span: `.` does not match a newline, so the
maximal span is the longest newline-free front of the input. -/
def maxDot (s : List Char) : Nat :=
  (s.takeWhile (fun c => !(c == '\n'))).length

/-- The alternative `.+\?v=` of group 5, followed by group 6. -/
def matchDotPlus (s : List Char) : Option String :=
  dotPlusAux (maxDot s) s

/-- Group 5, `(watch\?v=|embed/|v/|.+\?v=)?`, followed by group 6.
Alternatives in source order; the optional group tries to match before
matching empty. -/
def matchG5 (s : List Char) : Option String :=
  (dropLit "watch?v=" s >>= matchG6) <|>
  (dropLit "embed/" s >>= matchG6) <|>
  (dropLit "v/" s >>= matchG6) <|>
  matchDotPlus s <|>
  matchG6 s

/-- After group 3: the literal `\.`, group 4 `(com|be)`, the literal `/`,
then the rest of the pattern.  Each group-4 alternative carries the full
continuation so that failure later backtracks into the alternation. -/
def afterHost (s : List Char) : Option String :=
  dropLit "." s >>= fun s1 =>
    (dropLit "com" s1 >>= fun s2 => dropLit "/" s2 >>= matchG5) <|>
    (dropLit "be" s1 >>= fun s2 => dropLit "/" s2 >>= matchG5)

/-- Group 3, `(youtube|youtu|youtube-nocookie)`, alternatives in source
order, each followed by the rest of the pattern. -/
def matchG3 (s : List Char) : Option String :=
  (dropLit "youtube" s >>= afterHost) <|>
  (dropLit "youtu" s >>= afterHost) <|>
  (dropLit "youtube-nocookie" s >>= afterHost)

/-- Group 2, `(www\.)?`. -/
def matchG2 (s : List Char) : Option String :=
  (dropLit "www." s >>= matchG3) <|> matchG3 s

/-- Group 1, `(https?://)?`: greedy `s?` tries `https://` before
`http://`, and the optional group tries both before matching empty. -/
def matchG1 (s : List Char) : Option String :=
  (dropLit "https://" s >>= matchG2) <|>
  (dropLit "http://" s >>= matchG2) <|>
  matchG2 s

/-- Function `extract_video_id(url)`: `youtube_regex.match(url)` and, on
success, `match.group(6)`; `None` otherwise. -/
def extract_video_id (url : String) : Option String :=
  matchG1 url.data

/-- Function `is_valid_youtube_url(url)`:
`youtube_regex.match(url) is not None`, for the identical compiled
pattern. -/
def is_valid_youtube_url (url : String) : Bool :=
  (matchG1 url.data).isSome

/-! ## Format catalog construction (`get_video_info`, lines 68-103) -/

/-- One raw format dict as handed over by the engine; only the keys the
handler reads are modelled, each optional as `dict.get` is. -/
structure RawFormat where
  format_id : String
  vcodec : Option String
  height : Option Nat
  ext : Option String
  filesize : Option Nat
  fps : Option Nat
deriving DecidableEq, Repr

/-- One entry of the `formats` list built by the handler. -/
structure CatalogEntry where
  format_id : String
  quality : String
  ext : String
  filesize : Option Nat
  fps : Option Nat
deriving DecidableEq, Repr

/-- Condition `fmt.get('vcodec') != 'none'`: an absent key yields Python
`None`, and `None != 'none'` is `True`. -/
def vcodecPasses : Option String → Bool
  | none => true
  | some s => s != "none"

/-- Value `fmt.get('height')` used as a condition: `None` and `0` are
falsy. -/
def heightTruthy : Option Nat → Bool
  | none => false
  | some h => h != 0

/-- The dict appended for a kept format:
`{'format_id': ..., 'quality': f"{height}p", 'ext': fmt.get('ext','mp4'),
'filesize': ..., 'fps': ...}`. -/
def entryOf (f : RawFormat) (h : Nat) : CatalogEntry :=
  { format_id := f.format_id
    quality := toString h ++ "p"
    ext := f.ext.getD "mp4"
    filesize := f.filesize
    fps := f.fps }

/-- The `for fmt in info['formats']` loop with its `seen_qualities` set
(modelled as the list of labels inserted so far); the loop-local variable
`quality = f"{fmt['height']}p"` is inlined at its two uses. -/
def collectFormats : List RawFormat → List String → List CatalogEntry
  | [], _ => []
  | f :: fs, seen =>
    match f.height with
    | none => collectFormats fs seen
    | some h =>
      if vcodecPasses f.vcodec && heightTruthy (some h) then
        if (toString h ++ "p") ∈ seen then collectFormats fs seen
        else entryOf f h :: collectFormats fs ((toString h ++ "p") :: seen)
      else collectFormats fs seen

/-- Expression `x['quality'].replace('p', '')`: removes every `'p'`. -/
def removeAllP (s : String) : String :=
  String.mk (s.data.filter (fun c => !(c == 'p')))

/-- Accumulator pass of decimal parsing. -/
def pyIntAux : List Char → Nat → Nat
  | [], acc => acc
  | c :: cs, acc => pyIntAux cs (acc * 10 + (c.toNat - '0'.toNat))

/-- Python `int(...)` on the strings it is applied to here: every quality
label is a decimal numeral once the trailing `p` is removed, so plain
positional evaluation of the digits is the exact behaviour (`int` raises
only on malformed numerals, which cannot occur for these labels). -/
def pyInt (s : String) : Nat :=
  pyIntAux s.data 0

def qualityKey (e : CatalogEntry) : Nat :=
  pyInt (removeAllP e.quality)

/-- Statement `formats.sort(key=lambda x:
int(x['quality'].replace('p','')), reverse=True)`: a stable sort,
descending on the key. -/
def sortFormats (l : List CatalogEntry) : List CatalogEntry :=
  l.insertionSort (fun a b => qualityKey b ≤ qualityKey a)

instance : IsTotal CatalogEntry (fun a b => qualityKey b ≤ qualityKey a) :=
  ⟨fun a b => Nat.le_total (qualityKey b) (qualityKey a)⟩

instance : IsTrans CatalogEntry (fun a b => qualityKey b ≤ qualityKey a) :=
  ⟨fun _ _ _ h1 h2 => Nat.le_trans h2 h1⟩

/-- The synthetic audio-only entry appended after sorting. -/
def mp3Entry : CatalogEntry :=
  { format_id := "bestaudio"
    quality := "Audio Only (MP3)"
    ext := "mp3"
    filesize := none
    fps := none }

/-- The whole `formats` value shipped in the response: collect, sort,
append the audio entry, then `formats[:10]`. -/
def get_video_info_formats (raw : List RawFormat) : List CatalogEntry :=
  (sortFormats (collectFormats raw []) ++ [mp3Entry]).take 10

/-! ## Format selection (`download_video`, lines 119-147) -/

structure Postprocessor where
  key : String
  preferredcodec : String
  preferredquality : String
deriving DecidableEq, Repr

/-- The parts of `ydl_opts` that vary with the chosen format (the
`outtmpl`/`cookies` entries are fixed strings shared by both branches). -/
structure YdlOpts where
  format : String
  postprocessors : List Postprocessor
deriving DecidableEq, Repr

/-- The `if format_id == 'bestaudio': ... else: ...` construction of
`ydl_opts`. -/
def build_ydl_opts (format_id : String) : YdlOpts :=
  if format_id = "bestaudio" then
    { format := "bestaudio/best"
      postprocessors := [⟨"FFmpegExtractAudio", "mp3", "192"⟩] }
  else
    { format := format_id, postprocessors := [] }

/-- The composite selector: `request.form.get('format_id', 'best')`
(the default applies only when the field is absent, not when it is the
empty string) followed by `build_ydl_opts`. -/
def resolve_format (choice : Option String) : YdlOpts :=
  build_ydl_opts (choice.getD "best")

/-! ## The request handlers (`get_video_info`, `download_video`) -/

/-- Python `str.strip()`: removes leading and trailing whitespace. -/
def pyIsSpace (c : Char) : Bool :=
  c == ' ' || c == '\t' || c == '\n' || c == '\r' || c == '\x0b' || c == '\x0c'

def pyStrip (s : String) : String :=
  String.mk (((s.data.dropWhile pyIsSpace).reverse.dropWhile pyIsSpace).reverse)

/-- An exception escaping an engine call: either `yt_dlp.DownloadError`
(caught by the first `except`) or any other exception (caught by the
second). -/
inductive PyError
  | downloadError (msg : String)
  | otherError (msg : String)
deriving DecidableEq, Repr

/-- The keys of the engine's `info` dict that the handlers read. -/
structure InfoDict where
  title : Option String
  duration : Option Nat
  thumbnail : Option String
  uploader : Option String
  view_count : Option Nat
  formats : Option (List RawFormat)
deriving DecidableEq, Repr

/-- The `video_info` JSON body returned on success. -/
structure VideoInfo where
  title : String
  duration : Nat
  thumbnail : String
  uploader : String
  view_count : Nat
  formats : List CatalogEntry
deriving DecidableEq, Repr

/-- An error response: `jsonify({'error': message}), status`. -/
structure ErrorJson where
  error : String
  status : Nat
deriving DecidableEq, Repr

inductive InfoResponse
  | ok (v : VideoInfo)
  | err (e : ErrorJson)
deriving DecidableEq, Repr

/-- One call into the Media Resolution Engine (`yt_dlp`). -/
inductive EngineCall
  | extractInfoCall (url : String)
  | downloadCall (url : String) (opts : YdlOpts)
deriving DecidableEq, Repr

def mkVideoInfo (info : InfoDict) : VideoInfo :=
  { title := info.title.getD "Unknown Title"
    duration := info.duration.getD 0
    thumbnail := info.thumbnail.getD ""
    uploader := info.uploader.getD "Unknown"
    view_count := info.view_count.getD 0
    formats := get_video_info_formats (info.formats.getD []) }

/-- The `get_video_info` handler.  The engine's `extract_info(url,
download=False)` is the parameter `extract_info`; the second component of
the result records every engine call made during the request. -/
def get_video_info_handler (form_url : Option String)
    (extract_info : String → Except PyError InfoDict) :
    InfoResponse × List EngineCall :=
  let url := pyStrip (form_url.getD "")
  if url = "" then
    (.err ⟨"Please enter a YouTube URL", 400⟩, [])
  else if is_valid_youtube_url url = false then
    (.err ⟨"Please enter a valid YouTube URL", 400⟩, [])
  else
    match extract_info url with
    | .ok info => (.ok (mkVideoInfo info), [.extractInfoCall url])
    | .error (.downloadError _) =>
        (.err ⟨"Failed to fetch video information. Please check the URL and try again.", 400⟩,
         [.extractInfoCall url])
    | .error (.otherError _) =>
        (.err ⟨"An unexpected error occurred. Please try again.", 500⟩,
         [.extractInfoCall url])

/-- The filesystem as seen by `download_video`: the pool of temporary
directories (name, contents) plus the counter `tempfile.mkdtemp` draws
fresh names from. -/
structure FS where
  nextId : Nat
  dirs : List (Nat × List String)
deriving DecidableEq, Repr

/-- Call `tempfile.mkdtemp()`: a fresh empty directory. -/
def mkdtemp (fs : FS) : Nat × FS :=
  (fs.nextId, ⟨fs.nextId + 1, fs.dirs ++ [(fs.nextId, [])]⟩)

/-- The engine writing its output files into directory `d`. -/
def writeFiles (fs : FS) (d : Nat) (files : List String) : FS :=
  ⟨fs.nextId, fs.dirs.map (fun p => if p.1 = d then (p.1, files) else p)⟩

/-- Call `os.listdir(temp_dir)`. -/
def listdir (fs : FS) (d : Nat) : List String :=
  ((fs.dirs.find? (fun p => p.1 == d)).map Prod.snd).getD []

/-- The response of `download_video`: `send_file(file_path,
as_attachment=True, download_name=...)`, or `flash(msg); redirect(index)`. -/
inductive DownloadResponse
  | sendFile (dir : Nat) (filename : String) (download_name : String)
  | redirectIndex (flash_msg : String)
deriving DecidableEq, Repr

/-- The `download_video` handler.  `extract_info` models
`ydl.extract_info(url, download=False)`; `do_download url opts` models
`ydl.download([url])` under options `opts`, returning the names of the
files the engine wrote into the target directory (or the exception it
raised).  Result: response, final filesystem, engine calls made. -/
def download_video_handler (form_url form_format_id : Option String)
    (extract_info : String → Except PyError InfoDict)
    (do_download : String → YdlOpts → Except PyError (List String))
    (fs : FS) : DownloadResponse × FS × List EngineCall :=
  let url := pyStrip (form_url.getD "")
  let format_id := form_format_id.getD "best"
  if url = "" || is_valid_youtube_url url = false then
    (.redirectIndex "Invalid YouTube URL", fs, [])
  else
    let td := mkdtemp fs
    let temp_dir := td.1
    let fs1 := td.2
    let ydl_opts := build_ydl_opts format_id
    match extract_info url with
    | .error (.downloadError _) =>
        (.redirectIndex "Download failed. Please try again with a different quality option.",
         fs1, [.extractInfoCall url])
    | .error (.otherError _) =>
        (.redirectIndex "An unexpected error occurred during download.",
         fs1, [.extractInfoCall url])
    | .ok info =>
      let _title := info.title.getD "video"
      match do_download url ydl_opts with
      | .error (.downloadError _) =>
          (.redirectIndex "Download failed. Please try again with a different quality option.",
           fs1, [.extractInfoCall url, .downloadCall url ydl_opts])
      | .error (.otherError _) =>
          (.redirectIndex "An unexpected error occurred during download.",
           fs1, [.extractInfoCall url, .downloadCall url ydl_opts])
      | .ok files =>
        let fs2 := writeFiles fs1 temp_dir files
        let downloaded_files := listdir fs2 temp_dir
        match downloaded_files with
        | [] =>
            (.redirectIndex "Download failed. No file was created.",
             fs2, [.extractInfoCall url, .downloadCall url ydl_opts])
        | f :: _ =>
            (.sendFile temp_dir f f,
             fs2, [.extractInfoCall url, .downloadCall url ydl_opts])

/-! ## Remaining definitions used by the statements -/

/-- Ten raw formats with ten distinct heights (all with a video codec). -/
def exRaw10 : List RawFormat :=
  [⟨"f1", some "avc1", some 2160, some "mp4", some 1, some 60⟩,
   ⟨"f2", some "avc1", some 1440, some "mp4", some 1, some 60⟩,
   ⟨"f3", some "avc1", some 1080, some "mp4", some 1, some 30⟩,
   ⟨"f4", some "avc1", some 720, some "mp4", some 1, some 30⟩,
   ⟨"f5", some "avc1", some 480, some "mp4", some 1, some 30⟩,
   ⟨"f6", some "avc1", some 360, some "mp4", some 1, some 30⟩,
   ⟨"f7", some "avc1", some 240, some "mp4", some 1, some 30⟩,
   ⟨"f8", some "avc1", some 144, some "mp4", some 1, some 30⟩,
   ⟨"f9", some "avc1", some 96, some "mp4", some 1, some 30⟩,
   ⟨"f10", some "avc1", some 48, some "mp4", some 1, some 30⟩]

/-- The raw formats of end-to-end scenario B: 720, 480, then a repeated
720 with a different identifier. -/
def exScenarioB : List RawFormat :=
  [⟨"22", some "avc1", some 720, some "mp4", some 1000, some 30⟩,
   ⟨"18", some "avc1", some 480, some "mp4", some 500, some 24⟩,
   ⟨"99", some "vp9", some 720, some "webm", some 900, some 60⟩]

/-- Shape of a captured video token: exactly 11 characters, each admitted
by the class `[^&=%\?]`. -/
def IdToken (t : String) : Prop :=
  t.length = 11 ∧ ∀ c ∈ t.data, isIdChar c = true

/-! ## Theorems -/

/-- C10: the boolean validator and the id extractor agree on every input:
`is_valid_youtube_url url` is `true` exactly when `extract_video_id url`
yields a token, both being driven by the same pattern. -/
theorem valid_iff_extract_some (url : String) :
    is_valid_youtube_url url = true ↔ (extract_video_id url).isSome = true :=
  Iff.rfl

/-- C6: the catalog builder is a total function of its input (so it cannot
fail and leaves its argument untouched), and on the empty raw format list
it returns exactly the one synthetic audio entry. -/
theorem build_empty_catalog : get_video_info_formats [] = [mp3Entry] := by
  decide

/-- C3 counterexample: a present-but-empty `format_id` field is not mapped
to the best-quality default; `request.form.get('format_id', 'best')`
substitutes the default only for an absent field, so the empty string
flows into `ydl_opts` verbatim. -/
theorem resolve_empty_choice_not_default :
    resolve_format (some "") = { format := "", postprocessors := [] } ∧
    resolve_format none = { format := "best", postprocessors := [] } ∧
    ({ format := "", postprocessors := [] } : YdlOpts) ≠
      { format := "best", postprocessors := [] } := by
  refine ⟨by decide, by decide, by decide⟩

/-- C3 (amended): an absent choice maps to the default directive `best`;
the sentinel `bestaudio` maps to the audio-extraction directive (format
`bestaudio/best` with the `FFmpegExtractAudio`/`mp3`/`192` postprocessor);
every other present choice string, the empty string included, maps to a
verbatim-format directive equal to that exact string. -/
theorem resolve_format_spec :
    resolve_format none = { format := "best", postprocessors := [] } ∧
    resolve_format (some "bestaudio") =
      { format := "bestaudio/best",
        postprocessors := [⟨"FFmpegExtractAudio", "mp3", "192"⟩] } ∧
    ∀ s : String, s ≠ "bestaudio" →
      resolve_format (some s) = { format := s, postprocessors := [] } := by
  refine ⟨by decide, by decide, fun s hs => ?_⟩
  simp [resolve_format, build_ydl_opts, hs]

/-- Witness for C3: the verbatim branch evaluated at the id `137`. -/
theorem resolve_format_spec_witness :
    resolve_format (some "137") = { format := "137", postprocessors := [] } :=
  resolve_format_spec.2.2 "137" (by decide)

theorem entryOf_quality (f : RawFormat) (h : Nat) :
    (entryOf f h).quality = toString h ++ "p" := rfl

/-- The collection loop only keeps a format whose label is fresh, so the
produced labels are pairwise distinct and disjoint from `seen_qualities`. -/
theorem collectFormats_quality_nodup (raw : List RawFormat) :
    ∀ seen : List String,
      ((collectFormats raw seen).map CatalogEntry.quality).Nodup ∧
        ∀ q ∈ (collectFormats raw seen).map CatalogEntry.quality, q ∉ seen := by
  induction raw with
  | nil => intro seen; simp [collectFormats]
  | cons f fs ih =>
    intro seen
    cases hh : f.height with
    | none => simpa [collectFormats, hh] using ih seen
    | some h =>
      by_cases hc : (vcodecPasses f.vcodec && heightTruthy (some h)) = true
      · by_cases hq : (toString h ++ "p") ∈ seen
        · simpa [collectFormats, hh, hc, hq] using ih seen
        · have hrw : collectFormats (f :: fs) seen =
              entryOf f h :: collectFormats fs ((toString h ++ "p") :: seen) := by
            simp [collectFormats, hh, hc, hq]
          rw [hrw]
          obtain ⟨hnd, hfr⟩ := ih ((toString h ++ "p") :: seen)
          constructor
          · simp only [List.map_cons, List.nodup_cons]
            exact ⟨fun hmem => (hfr _ hmem) (by simp [entryOf_quality]), hnd⟩
          · intro q hqmem
            simp only [List.map_cons, List.mem_cons] at hqmem
            rcases hqmem with rfl | hqmem
            · simpa [entryOf_quality] using hq
            · exact fun hqseen => (hfr q hqmem) (List.mem_cons_of_mem _ hqseen)
      · simpa [collectFormats, hh, hc] using ih seen

/-- C5: per quality label only the first-encountered descriptor is kept,
so no two video entries share a label; the video entries are a stable
descending sort (by the numeric key recovered from the label) of the
first-seen pass, witnessed by the sortedness and permutation facts; and
end-to-end scenario B evaluates to the first 720p entry, the 480p entry
and the audio entry, the duplicate 720p descriptor being dropped. -/
theorem catalog_dedup_and_sorted (raw : List RawFormat) :
    ((sortFormats (collectFormats raw [])).map CatalogEntry.quality).Nodup ∧
    List.Sorted (fun a b => qualityKey b ≤ qualityKey a)
      (sortFormats (collectFormats raw [])) ∧
    List.Perm (sortFormats (collectFormats raw [])) (collectFormats raw []) ∧
    get_video_info_formats exScenarioB =
      [⟨"22", "720p", "mp4", some 1000, some 30⟩,
       ⟨"18", "480p", "mp4", some 500, some 24⟩, mp3Entry] := by
  refine ⟨?_, ?_, ?_, by decide⟩
  · have hperm := List.perm_insertionSort
      (fun a b => qualityKey b ≤ qualityKey a) (collectFormats raw [])
    exact ((hperm.map CatalogEntry.quality).nodup_iff).mpr
      (collectFormats_quality_nodup raw []).1
  · simp only [sortFormats]
    exact List.sorted_insertionSort _ _
  · simp only [sortFormats]
    exact List.perm_insertionSort _ _

/-- Every entry produced by the collection loop carries a label of the
shape `f"{height}p"`. -/
theorem mem_collect_quality (raw : List RawFormat) :
    ∀ seen, ∀ e ∈ collectFormats raw seen, ∃ n : Nat, e.quality = toString n ++ "p" := by
  induction raw with
  | nil => intro seen e he; simp [collectFormats] at he
  | cons f fs ih =>
    intro seen e he
    cases hh : f.height with
    | none =>
      simp only [collectFormats, hh] at he
      exact ih _ _ he
    | some h =>
      by_cases hc : (vcodecPasses f.vcodec && heightTruthy (some h)) = true
      · by_cases hq : (toString h ++ "p") ∈ seen
        · simp only [collectFormats, hh, hc, hq, if_true, if_pos] at he
          exact ih _ _ he
        · simp [collectFormats, hh, hc, hq] at he
          rcases he with rfl | he
          · exact ⟨h, rfl⟩
          · exact ih _ _ he
      · simp only [collectFormats, hh] at he
        rw [if_neg (by simpa using hc)] at he
        exact ih _ _ he

/-- The synthetic audio entry is never produced by the collection loop
(its label does not end in `p`). -/
theorem mp3Entry_not_mem_collect (raw : List RawFormat) (seen : List String) :
    mp3Entry ∉ collectFormats raw seen := by
  intro hmem
  obtain ⟨n, hn⟩ := mem_collect_quality raw seen mp3Entry hmem
  have h1 : mp3Entry.quality.data.getLast? = some ')' := by decide
  have h2 : (toString n ++ "p").data.getLast? = some 'p' := by
    rw [String.data_append]
    have h3 : ("p".data : List Char) = ['p'] := rfl
    rw [h3]
    exact List.getLast?_concat _
  rw [hn, h2] at h1
  exact absurd h1 (by decide)

/-- C1 counterexample: with ten distinct-height video formats the
truncation `formats[:10]` is applied after the audio entry has been
appended, so the synthetic audio entry is cut off: the catalog has ten
entries, contains no audio entry, and its last element is not the audio
entry. -/
theorem catalog_audio_dropped_at_ten :
    (get_video_info_formats exRaw10).length = 10 ∧
    mp3Entry ∉ get_video_info_formats exRaw10 ∧
    (get_video_info_formats exRaw10).getLast? ≠ some mp3Entry := by decide

/-- C1 (amended): the audio entry is appended before the `[:10]`
truncation, so the catalog always has at most 10 entries in total; when at
most 9 video entries survive dedup the catalog is exactly the sorted video
entries followed by the one audio entry, which is then the last element;
when 10 or more survive, the truncation drops the audio entry and the
catalog contains no audio entry at all. -/
theorem catalog_cap_and_audio_placement (raw : List RawFormat) :
    (get_video_info_formats raw).length ≤ 10 ∧
    ((sortFormats (collectFormats raw [])).length ≤ 9 →
      get_video_info_formats raw =
        sortFormats (collectFormats raw []) ++ [mp3Entry] ∧
      (get_video_info_formats raw).getLast? = some mp3Entry) ∧
    (10 ≤ (sortFormats (collectFormats raw [])).length →
      mp3Entry ∉ get_video_info_formats raw) := by
  refine ⟨List.length_take_le _ _, ?_, ?_⟩
  · intro h9
    have hlen : (sortFormats (collectFormats raw []) ++ [mp3Entry]).length ≤ 10 := by
      simp only [List.length_append, List.length_singleton]
      omega
    have heq : get_video_info_formats raw =
        sortFormats (collectFormats raw []) ++ [mp3Entry] := by
      simp only [get_video_info_formats]
      exact List.take_of_length_le hlen
    exact ⟨heq, by rw [heq]; exact List.getLast?_concat _⟩
  · intro h10 hmem
    have htake : get_video_info_formats raw =
        (sortFormats (collectFormats raw [])).take 10 := by
      simp only [get_video_info_formats]
      exact List.take_append_of_le_length h10
    rw [htake] at hmem
    have hmem' := List.mem_of_mem_take hmem
    have hcol : mp3Entry ∈ collectFormats raw [] := by
      have hperm := List.perm_insertionSort
        (fun a b => qualityKey b ≤ qualityKey a) (collectFormats raw [])
      exact hperm.mem_iff.mp (by simpa [sortFormats] using hmem')
    exact mp3Entry_not_mem_collect raw [] hcol

/-- Witness for C1: on the empty input the at-most-9 branch applies and
the audio entry is last. -/
theorem catalog_cap_witness :
    get_video_info_formats [] = sortFormats (collectFormats [] []) ++ [mp3Entry] ∧
    (get_video_info_formats []).getLast? = some mp3Entry :=
  (catalog_cap_and_audio_placement []).2.1 (by decide)

/-- C7: on any input whose stripped form fails URL validation, the
metadata handler answers with a 400 error body and the download handler
with the invalid-URL redirect, and neither makes any engine call (the
download handler does not even touch the filesystem). -/
theorem invalid_url_fails_fast (form_url form_format_id : Option String)
    (extract_info : String → Except PyError InfoDict)
    (do_download : String → YdlOpts → Except PyError (List String)) (fs : FS)
    (h : is_valid_youtube_url (pyStrip (form_url.getD "")) = false) :
    ((get_video_info_handler form_url extract_info).2 = [] ∧
      ∃ e, (get_video_info_handler form_url extract_info).1 = .err e ∧
        e.status = 400) ∧
    download_video_handler form_url form_format_id extract_info do_download fs =
      (.redirectIndex "Invalid YouTube URL", fs, []) := by
  constructor
  · by_cases he : pyStrip (form_url.getD "") = ""
    · exact ⟨by simp [get_video_info_handler, he],
        ⟨"Please enter a YouTube URL", 400⟩,
        by simp [get_video_info_handler, he], rfl⟩
    · exact ⟨by simp [get_video_info_handler, he, h],
        ⟨"Please enter a valid YouTube URL", 400⟩,
        by simp [get_video_info_handler, he, h], rfl⟩
  · simp [download_video_handler, h]

/-- Witness for C7: the scenario-C input `not a url`. -/
theorem invalid_url_fails_fast_witness :
    download_video_handler (some "not a url") none
      (fun _ => .error (.downloadError "e"))
      (fun _ _ => .error (.downloadError "e")) ⟨0, []⟩ =
      (.redirectIndex "Invalid YouTube URL", ⟨0, []⟩, []) :=
  (invalid_url_fails_fast (some "not a url") none
    (fun _ => .error (.downloadError "e"))
    (fun _ _ => .error (.downloadError "e")) ⟨0, []⟩ (by decide)).2

theorem map_fst_writeFiles (fs : FS) (d : Nat) (files : List String) :
    (writeFiles fs d files).dirs.map Prod.fst = fs.dirs.map Prod.fst := by
  simp only [writeFiles, List.map_map]
  refine List.map_congr_left (fun p _ => ?_)
  by_cases hp : p.1 = d <;> simp [hp]

/-- C2 divergence: `download_video` never removes the workspace it
creates.  On a valid URL a fresh directory is added to the filesystem and
it is still present when the handler returns, on every exit path — engine
metadata failure, download failure, empty workspace, and successful send
alike; no removal operation exists anywhere in the handler. -/
theorem download_video_workspace_leaks (form_url form_format_id : Option String)
    (extract_info : String → Except PyError InfoDict)
    (do_download : String → YdlOpts → Except PyError (List String)) (fs : FS)
    (h : is_valid_youtube_url (pyStrip (form_url.getD "")) = true) :
    ((download_video_handler form_url form_format_id extract_info do_download
        fs).2.1).dirs.map Prod.fst = fs.dirs.map Prod.fst ++ [fs.nextId] := by
  have hne : pyStrip (form_url.getD "") ≠ "" := by
    intro he
    rw [he] at h
    exact absurd h (by decide)
  simp only [download_video_handler]
  rw [if_neg (by simp [hne, h])]
  cases hei : extract_info (pyStrip (form_url.getD "")) with
  | error e => cases e <;> simp [hei, mkdtemp]
  | ok info =>
    cases hdl : do_download (pyStrip (form_url.getD ""))
        (build_ydl_opts (form_format_id.getD "best")) with
    | error e => cases e <;> simp [hei, hdl, mkdtemp]
    | ok files =>
      simp only [hei, hdl, mkdtemp]
      cases listdir
          (writeFiles ⟨fs.nextId + 1, fs.dirs ++ [(fs.nextId, [])]⟩ fs.nextId files)
          fs.nextId <;>
        simp [map_fst_writeFiles]

/-- Looking up a key that was fresh before the engine wrote its files
finds exactly the written contents. -/
theorem find_fresh_update (l : List (Nat × List String)) (k : Nat)
    (files : List String) (h : k ∉ l.map Prod.fst) :
    ((l ++ [(k, [])]).map
        (fun p : Nat × List String => if p.1 = k then (p.1, files) else p)).find?
      (fun p => p.1 == k) = some (k, files) := by
  induction l with
  | nil => simp
  | cons p l ih =>
    simp only [List.map_cons, List.mem_cons, not_or] at h
    obtain ⟨h1, h2⟩ := h
    have hp : ¬ p.1 = k := fun hc => h1 hc.symm
    simp only [List.cons_append, List.map_cons, if_neg hp]
    rw [List.find?_cons_of_neg _ (by simpa using hp)]
    exact ih h2

/-- Listing the fresh workspace directory after the engine wrote `files`
into it yields exactly `files`. -/
theorem listdir_writeFiles_fresh (fs : FS) (files : List String)
    (h : fs.nextId ∉ fs.dirs.map Prod.fst) :
    listdir (writeFiles (mkdtemp fs).2 (mkdtemp fs).1 files) (mkdtemp fs).1 =
      files := by
  simp only [mkdtemp, writeFiles, listdir]
  rw [find_fresh_update fs.dirs fs.nextId files h]
  rfl

/-- C8: when the download action returns without error, an empty workspace
listing produces the `no file was created` notice — a message distinct
from the network/download failure notice — while a non-empty listing makes
the handler send the first listed file, under its engine-produced name as
the suggested download name. -/
theorem download_artifact_selection (form_url form_format_id : Option String)
    (extract_info : String → Except PyError InfoDict)
    (do_download : String → YdlOpts → Except PyError (List String)) (fs : FS)
    (info : InfoDict) (files : List String)
    (hv : is_valid_youtube_url (pyStrip (form_url.getD "")) = true)
    (hfresh : fs.nextId ∉ fs.dirs.map Prod.fst)
    (hei : extract_info (pyStrip (form_url.getD "")) = .ok info)
    (hdl : do_download (pyStrip (form_url.getD ""))
      (build_ydl_opts (form_format_id.getD "best")) = .ok files) :
    (files = [] →
      (download_video_handler form_url form_format_id extract_info do_download
        fs).1 = .redirectIndex "Download failed. No file was created.") ∧
    (∀ f rest, files = f :: rest →
      (download_video_handler form_url form_format_id extract_info do_download
        fs).1 = .sendFile fs.nextId f f) ∧
    DownloadResponse.redirectIndex "Download failed. No file was created." ≠
      DownloadResponse.redirectIndex
        "Download failed. Please try again with a different quality option." := by
  have hne : pyStrip (form_url.getD "") ≠ "" := by
    intro he
    rw [he] at hv
    exact absurd hv (by decide)
  have hls := listdir_writeFiles_fresh fs files hfresh
  simp only [mkdtemp] at hls
  refine ⟨?_, ?_, by decide⟩
  · intro hfe
    subst hfe
    simp only [download_video_handler]
    rw [if_neg (by simp [hne, hv])]
    simp only [hei, hdl, mkdtemp]
    rw [hls]
  · intro f rest hfc
    subst hfc
    simp only [download_video_handler]
    rw [if_neg (by simp [hne, hv])]
    simp only [hei, hdl, mkdtemp]
    rw [hls]

/-- Witness for C8: a successful download that wrote one file. -/
theorem download_artifact_selection_witness :
    (download_video_handler (some "https://youtu.be/dQw4w9WgXcQ") (some "22")
      (fun _ => .ok ⟨some "t", none, none, none, none, none⟩)
      (fun _ _ => .ok ["video.mp4"]) ⟨0, []⟩).1 =
      .sendFile 0 "video.mp4" "video.mp4" :=
  (download_artifact_selection (some "https://youtu.be/dQw4w9WgXcQ") (some "22")
    (fun _ => .ok ⟨some "t", none, none, none, none, none⟩)
    (fun _ _ => .ok ["video.mp4"]) ⟨0, []⟩
    ⟨some "t", none, none, none, none, none⟩ ["video.mp4"]
    (by decide) (by decide) rfl rfl).2.1 "video.mp4" [] rfl

/-- A successful group-6 parse consumed exactly `n` characters, all of
them admitted by the character class. -/
theorem takeChars_spec :
    ∀ (n : Nat) (s cs : List Char), takeChars n s = some cs →
      cs.length = n ∧ ∀ c ∈ cs, isIdChar c = true := by
  intro n
  induction n with
  | zero =>
    intro s cs h
    simp [takeChars] at h
    subst h
    simp
  | succ n ih =>
    intro s cs h
    cases s with
    | nil => simp [takeChars] at h
    | cons c s' =>
      simp only [takeChars] at h
      by_cases hc : isIdChar c = true
      · rw [if_pos hc] at h
        cases hts : takeChars n s' with
        | none => rw [hts] at h; simp at h
        | some l =>
          rw [hts] at h
          simp at h
          subst h
          obtain ⟨hl, hall⟩ := ih s' l hts
          refine ⟨by simp [hl], ?_⟩
          intro x hx
          rcases List.mem_cons.mp hx with rfl | hx
          · exact hc
          · exact hall x hx
      · rw [if_neg hc] at h; simp at h

theorem matchG6_token (s : List Char) (t : String) (h : matchG6 s = some t) :
    IdToken t := by
  simp only [matchG6] at h
  cases hts : takeChars 11 s with
  | none => rw [hts] at h; simp at h
  | some cs =>
    rw [hts] at h
    simp at h
    subst h
    obtain ⟨hl, hall⟩ := takeChars_spec 11 s cs hts
    exact ⟨hl, hall⟩

/-- Sequencing a consumed piece with a continuation that only produces
well-shaped tokens produces well-shaped tokens. -/
theorem bind_token (o : Option (List Char)) (f : List Char → Option String)
    (hf : ∀ s t, f s = some t → IdToken t) :
    ∀ t, (o >>= f) = some t → IdToken t := by
  intro t h
  cases o with
  | none => simp at h
  | some r =>
    simp at h
    exact hf r t h

/-- An ordered choice of token-shaped alternatives is token-shaped. -/
theorem orElse_token (o1 o2 : Option String)
    (h1 : ∀ t, o1 = some t → IdToken t) (h2 : ∀ t, o2 = some t → IdToken t) :
    ∀ t, (o1 <|> o2) = some t → IdToken t := by
  intro t h
  cases o1 with
  | some a =>
    simp at h
    subst h
    exact h1 a rfl
  | none =>
    simp at h
    exact h2 t h

theorem dotPlusAux_token (n : Nat) (s : List Char) :
    ∀ t, dotPlusAux n s = some t → IdToken t := by
  induction n with
  | zero => intro t h; simp [dotPlusAux] at h
  | succ n ih =>
    exact orElse_token _ _
      (bind_token _ _ (fun r t h => matchG6_token r t h)) ih

theorem matchG5_token (s : List Char) :
    ∀ t, matchG5 s = some t → IdToken t :=
  orElse_token _ _ (bind_token _ _ matchG6_token)
    (orElse_token _ _ (bind_token _ _ matchG6_token)
      (orElse_token _ _ (bind_token _ _ matchG6_token)
        (orElse_token _ _ (dotPlusAux_token (maxDot s) s)
          (fun t h => matchG6_token s t h))))

theorem afterHost_token (s : List Char) :
    ∀ t, afterHost s = some t → IdToken t :=
  bind_token _ _ (fun _ =>
    orElse_token _ _
      (bind_token _ _ (fun _ => bind_token _ _ matchG5_token))
      (bind_token _ _ (fun _ => bind_token _ _ matchG5_token)))

theorem matchG3_token (s : List Char) :
    ∀ t, matchG3 s = some t → IdToken t :=
  orElse_token _ _ (bind_token _ _ afterHost_token)
    (orElse_token _ _ (bind_token _ _ afterHost_token)
      (bind_token _ _ afterHost_token))

theorem matchG2_token (s : List Char) :
    ∀ t, matchG2 s = some t → IdToken t :=
  orElse_token _ _ (bind_token _ _ matchG3_token) (matchG3_token s)

theorem matchG1_token (s : List Char) :
    ∀ t, matchG1 s = some t → IdToken t :=
  orElse_token _ _ (bind_token _ _ matchG2_token)
    (orElse_token _ _ (bind_token _ _ matchG2_token) (matchG2_token s))

/-- C4 counterexample: the character class of the token is `[^&=%\?]`,
not alphanumerics plus `-`/`_`: a URL whose token position holds eleven
`!` characters is accepted and `!!!!!!!!!!!` is extracted, although `!` is
neither alphanumeric nor `-` nor `_`. -/
theorem url_validator_accepts_non_alphanumeric_token :
    extract_video_id "https://www.youtube.com/watch?v=!!!!!!!!!!!" =
      some "!!!!!!!!!!!" ∧
    is_valid_youtube_url "https://www.youtube.com/watch?v=!!!!!!!!!!!" = true ∧
    ('!'.isAlphanum = false ∧ '!' ≠ '-' ∧ '!' ≠ '_') := by decide

/-- C4 (amended): every accepted string yields a token of exactly 11
characters taken from the matched position, each drawn from the class of
all characters other than `&`, `=`, `%` and `?` (a superset of
alphanumerics plus `-`/`_`); the canonical example extracts
`dQw4w9WgXcQ`. -/
theorem extract_video_id_token_shape :
    (∀ url t, extract_video_id url = some t →
      t.length = 11 ∧ ∀ c ∈ t.data, isIdChar c = true) ∧
    extract_video_id "https://www.youtube.com/watch?v=dQw4w9WgXcQ" =
      some "dQw4w9WgXcQ" :=
  ⟨fun url t h => matchG1_token url.data t h, by decide⟩

/-- Witness for C4: the canonical URL's token has the proved shape. -/
theorem extract_video_id_token_shape_witness :
    ("dQw4w9WgXcQ" : String).length = 11 ∧
      ∀ c ∈ ("dQw4w9WgXcQ" : String).data, isIdChar c = true :=
  extract_video_id_token_shape.1 "https://www.youtube.com/watch?v=dQw4w9WgXcQ"
    "dQw4w9WgXcQ" (by decide)

/-- Consuming a literal succeeds unchanged on an extended input, with the
suffix surviving at the end. -/
theorem dropChars_append (cs : List Char) :
    ∀ s t r, dropChars cs s = some r → dropChars cs (s ++ t) = some (r ++ t) := by
  induction cs with
  | nil =>
    intro s t r h
    simp [dropChars] at h
    subst h
    rfl
  | cons c cs ih =>
    intro s t r h
    cases s with
    | nil => simp [dropChars] at h
    | cons d s' =>
      simp only [dropChars, List.cons_append] at h ⊢
      by_cases hc : c = d
      · rw [if_pos hc] at h ⊢
        exact ih s' t r h
      · rw [if_neg hc] at h
        exact absurd h (by simp)

theorem dropLit_append (lit : String) (s t r : List Char)
    (h : dropLit lit s = some r) : dropLit lit (s ++ t) = some (r ++ t) :=
  dropChars_append lit.data s t r h

/-- Group 6 consumes only its eleven characters, so an appended suffix
changes nothing about a successful parse. -/
theorem takeChars_append (n : Nat) :
    ∀ s t cs, takeChars n s = some cs → takeChars n (s ++ t) = some cs := by
  induction n with
  | zero =>
    intro s t cs h
    simp [takeChars] at h ⊢
    exact h
  | succ n ih =>
    intro s t cs h
    cases s with
    | nil => simp [takeChars] at h
    | cons c s' =>
      simp only [takeChars, List.cons_append] at h ⊢
      by_cases hc : isIdChar c = true
      · rw [if_pos hc] at h ⊢
        cases hts : takeChars n s' with
        | none => rw [hts] at h; simp at h
        | some l =>
          rw [hts] at h
          rw [show takeChars n (s'.append t) = some l from ih s' t l hts]
          exact h
      · rw [if_neg hc] at h
        exact absurd h (by simp)

theorem matchG6_append (s t : List Char) (v : String) (h : matchG6 s = some v) :
    matchG6 (s ++ t) = some v := by
  simp only [matchG6] at h ⊢
  cases hts : takeChars 11 s with
  | none => rw [hts] at h; simp at h
  | some cs =>
    rw [hts] at h
    rw [takeChars_append 11 s t cs hts]
    exact h

theorem matchG6_mono (s t : List Char)
    (h : (matchG6 s).isSome = true) : (matchG6 (s ++ t)).isSome = true := by
  obtain ⟨v, hv⟩ := Option.isSome_iff_exists.mp h
  rw [matchG6_append s t v hv]
  rfl

/-- A literal followed by a suffix-tolerant continuation is
suffix-tolerant. -/
theorem bindK_mono (lit : String) (K : List Char → Option String)
    (hK : ∀ s t, (K s).isSome = true → (K (s ++ t)).isSome = true)
    (s t : List Char) (h : (dropLit lit s >>= K).isSome = true) :
    (dropLit lit (s ++ t) >>= K).isSome = true := by
  cases hd : dropLit lit s with
  | none => rw [hd] at h; simp at h
  | some r =>
    rw [hd] at h
    rw [dropLit_append lit s t r hd]
    exact hK r t h

/-- An ordered choice of suffix-tolerant alternatives is suffix-tolerant. -/
theorem orElse_isSome_mono (o1 o2 p1 p2 : Option String)
    (h1 : o1.isSome = true → p1.isSome = true)
    (h2 : o2.isSome = true → p2.isSome = true)
    (h : (o1 <|> o2).isSome = true) : (p1 <|> p2).isSome = true := by
  cases ho : o1 with
  | some a =>
    have hp := h1 (by rw [ho]; rfl)
    obtain ⟨b, hb⟩ := Option.isSome_iff_exists.mp hp
    rw [hb]
    rfl
  | none =>
    rw [ho] at h
    simp only [Option.none_orElse] at h
    have hp := h2 h
    cases hq : p1 with
    | some b => rfl
    | none => simpa using hp

theorem dotCand_mono (k : Nat) (s t : List Char) (hk : k ≤ s.length)
    (h : (dotCand k s).isSome = true) : (dotCand k (s ++ t)).isSome = true := by
  have hdrop : (s ++ t).drop k = s.drop k ++ t := by
    rw [List.drop_append_eq_append_drop, Nat.sub_eq_zero_of_le hk, List.drop_zero]
  simp only [dotCand] at h ⊢
  rw [hdrop]
  exact bindK_mono "?v=" matchG6 matchG6_mono (s.drop k) t h

/-- A successful greedy pass used some `.`-length between 1 and the bound. -/
theorem dotPlusAux_exists (n : Nat) (s : List Char)
    (h : (dotPlusAux n s).isSome = true) :
    ∃ k, 1 ≤ k ∧ k ≤ n ∧ (dotCand k s).isSome = true := by
  induction n with
  | zero => simp [dotPlusAux] at h
  | succ n ih =>
    simp only [dotPlusAux] at h
    cases hc : dotCand (n + 1) s with
    | some v => exact ⟨n + 1, by omega, by omega, by rw [hc]; rfl⟩
    | none =>
      rw [hc] at h
      simp only [Option.none_orElse] at h
      obtain ⟨k, h1, h2, h3⟩ := ih h
      exact ⟨k, h1, by omega, h3⟩

/-- Any successful `.`-length within the bound makes the greedy pass
succeed. -/
theorem dotPlusAux_of_cand (n : Nat) :
    ∀ k s, 1 ≤ k → k ≤ n → (dotCand k s).isSome = true →
      (dotPlusAux n s).isSome = true := by
  induction n with
  | zero => intro k s h1 h2 _; omega
  | succ n ih =>
    intro k s h1 h2 h3
    simp only [dotPlusAux]
    by_cases hk : k = n + 1
    · subst hk
      obtain ⟨v, hv⟩ := Option.isSome_iff_exists.mp h3
      rw [hv]
      rfl
    · have hrest := ih k s h1 (by omega) h3
      cases hc : dotCand (n + 1) s with
      | some v => rfl
      | none => simpa using hrest

theorem length_takeWhile_le_self (p : Char → Bool) (l : List Char) :
    (l.takeWhile p).length ≤ l.length := by
  induction l with
  | nil => simp
  | cons c l ih =>
    rw [List.takeWhile_cons]
    by_cases hc : p c = true
    · simp only [hc, if_true, List.length_cons]
      omega
    · simp [hc]

theorem maxDot_le_length (s : List Char) : maxDot s ≤ s.length :=
  length_takeWhile_le_self _ s

theorem maxDot_mono (s t : List Char) : maxDot s ≤ maxDot (s ++ t) := by
  simp only [maxDot]
  induction s with
  | nil => simp
  | cons c s ih =>
    simp only [List.cons_append, List.takeWhile_cons]
    by_cases hc : (!(c == '\n')) = true
    · simp only [hc, if_true, List.length_cons]
      omega
    · simp [hc]

theorem matchDotPlus_mono (s t : List Char)
    (h : (matchDotPlus s).isSome = true) :
    (matchDotPlus (s ++ t)).isSome = true := by
  simp only [matchDotPlus] at h ⊢
  obtain ⟨k, h1, h2, h3⟩ := dotPlusAux_exists _ _ h
  have hlen : k ≤ s.length := le_trans h2 (maxDot_le_length s)
  exact dotPlusAux_of_cand _ k _ h1 (le_trans h2 (maxDot_mono s t))
    (dotCand_mono k s t hlen h3)

theorem matchG5_mono (s t : List Char)
    (h : (matchG5 s).isSome = true) : (matchG5 (s ++ t)).isSome = true := by
  simp only [matchG5] at h ⊢
  exact orElse_isSome_mono _ _ _ _
    (bindK_mono "watch?v=" matchG6 matchG6_mono s t)
    (orElse_isSome_mono _ _ _ _
      (bindK_mono "embed/" matchG6 matchG6_mono s t)
      (orElse_isSome_mono _ _ _ _
        (bindK_mono "v/" matchG6 matchG6_mono s t)
        (orElse_isSome_mono _ _ _ _
          (matchDotPlus_mono s t)
          (matchG6_mono s t)))) h

theorem afterHost_mono (s t : List Char)
    (h : (afterHost s).isSome = true) : (afterHost (s ++ t)).isSome = true := by
  simp only [afterHost] at h ⊢
  exact bindK_mono "." _
    (fun s1 t1 hh => orElse_isSome_mono _ _ _ _
      (bindK_mono "com" _
        (fun s2 t2 => bindK_mono "/" matchG5 matchG5_mono s2 t2) s1 t1)
      (bindK_mono "be" _
        (fun s2 t2 => bindK_mono "/" matchG5 matchG5_mono s2 t2) s1 t1) hh)
    s t h

theorem matchG3_mono (s t : List Char)
    (h : (matchG3 s).isSome = true) : (matchG3 (s ++ t)).isSome = true := by
  simp only [matchG3] at h ⊢
  exact orElse_isSome_mono _ _ _ _
    (bindK_mono "youtube" afterHost afterHost_mono s t)
    (orElse_isSome_mono _ _ _ _
      (bindK_mono "youtu" afterHost afterHost_mono s t)
      (bindK_mono "youtube-nocookie" afterHost afterHost_mono s t)) h

theorem matchG2_mono (s t : List Char)
    (h : (matchG2 s).isSome = true) : (matchG2 (s ++ t)).isSome = true := by
  simp only [matchG2] at h ⊢
  exact orElse_isSome_mono _ _ _ _
    (bindK_mono "www." matchG3 matchG3_mono s t)
    (matchG3_mono s t) h

theorem matchG1_mono (s t : List Char)
    (h : (matchG1 s).isSome = true) : (matchG1 (s ++ t)).isSome = true := by
  simp only [matchG1] at h ⊢
  exact orElse_isSome_mono _ _ _ _
    (bindK_mono "https://" matchG2 matchG2_mono s t)
    (orElse_isSome_mono _ _ _ _
      (bindK_mono "http://" matchG2 matchG2_mono s t)
      (matchG2_mono s t)) h

/-- C9: URL validation is anchored at the start only — every string the
validator accepts stays accepted after appending an arbitrary suffix, so
trailing garbage after a valid part is tolerated, not rejected. -/
theorem valid_url_suffix_tolerant (url suffix : String)
    (h : is_valid_youtube_url url = true) :
    is_valid_youtube_url (url ++ suffix) = true := by
  simp only [is_valid_youtube_url] at h ⊢
  rw [String.data_append]
  exact matchG1_mono url.data suffix.data h

/-- Witness for C9: a canonical URL with trailing garbage appended. -/
theorem valid_url_suffix_tolerant_witness :
    is_valid_youtube_url
      ("https://www.youtube.com/watch?v=dQw4w9WgXcQ" ++ "&t=42s trailing") =
      true :=
  valid_url_suffix_tolerant "https://www.youtube.com/watch?v=dQw4w9WgXcQ"
    "&t=42s trailing" (by decide)

/-- Witness for C2: a download whose engine call fails still leaves the
freshly created workspace directory behind. -/
theorem download_video_workspace_leaks_witness :
    ((download_video_handler (some "https://youtu.be/dQw4w9WgXcQ") none
      (fun _ => .error (.downloadError "network down"))
      (fun _ _ => .error (.downloadError "network down"))
      ⟨0, []⟩).2.1).dirs.map Prod.fst = [0] :=
  download_video_workspace_leaks (some "https://youtu.be/dQw4w9WgXcQ") none
    (fun _ => .error (.downloadError "network down"))
    (fun _ _ => .error (.downloadError "network down"))
    ⟨0, []⟩ (by decide)
